import Mathlib

/-!
Verification of the GitHub storage adapter (src/github-storage.js).

The module persists a list of "update log" records either to a remote GitHub
repository file or to the browser's localStorage.  The shallow embedding below
translates the JavaScript class into pure Lean functions:

* JavaScript values that flow through `JSON.parse` / `JSON.stringify` are
  modelled by the inductive type `Json` (numbers restricted to integers, which
  covers every payload appearing in this development; the parser fails rather
  than misparse on other numbers).
* `localStorage` is modelled as an association list of key/value strings where
  `setItem` conses and `getItem` returns the most recent binding.
* The two `fetch` calls made by the adapter are modelled by an environment
  `Env` carrying the outcome of the GET and PUT requests, the quota state of
  local storage, and the timestamp used in the commit message.
* JavaScript exceptions are modelled with `Except JsError`.
* The browser built-ins `btoa`, `atob`, `encodeURIComponent`, `unescape`,
  `JSON.parse` and `JSON.stringify` are modelled from their standard
  (ECMAScript / WHATWG) semantics, since the source calls them directly.
-/

/-- JSON values as produced by `JSON.parse`.  Numbers are restricted to
integers; the parser rejects fractional or exponent forms instead of
approximating them. -/
inductive Json where
  | null : Json
  | bool : Bool → Json
  | num : Int → Json
  | str : String → Json
  | arr : List Json → Json
  | obj : List (String × Json) → Json

/-- Property lookup `j[k]` on a JSON value: `some` for an object that has the
field, `none` (JavaScript `undefined`) otherwise. -/
def getField (j : Json) (k : String) : Option Json :=
  match j with
  | .obj fields => fields.lookup k
  | _ => none

/-- JavaScript truthiness of a JSON value: `null`, `false`, `0` and the empty
string are falsy; every other value (including `[]` and the empty object) is
truthy. -/
def jsTruthy : Json → Bool
  | .null => false
  | .bool b => b
  | .num n => n != 0
  | .str s => s != ""
  | .arr _ => true
  | .obj _ => true

/-- Truthiness of the property access `j[k]`; a missing field is `undefined`,
which is falsy. -/
def truthyField (j : Json) (k : String) : Bool :=
  match getField j k with
  | some v => jsTruthy v
  | none => false

/-- Lower-case hexadecimal digit, used by `JSON.stringify` control-character
escapes. -/
def lowerHexDigit (n : Nat) : Char :=
  "0123456789abcdef".data.getD n '0'

/-- Escaping of one character inside a JSON string literal, following
`JSON.stringify` (quote, backslash, the short control escapes, `\u00xx` for
the remaining control characters, everything else verbatim). -/
def escapeJsonChar (c : Char) : List Char :=
  if c = '\x22' then ['\\', '\x22']
  else if c = '\\' then ['\\', '\\']
  else if c = '\n' then ['\\', 'n']
  else if c = '\r' then ['\\', 'r']
  else if c = '\t' then ['\\', 't']
  else if c.toNat = 8 then ['\\', 'b']
  else if c.toNat = 12 then ['\\', 'f']
  else if c.toNat < 32 then
    ['\\', 'u', '0', '0', lowerHexDigit (c.toNat / 16), lowerHexDigit (c.toNat % 16)]
  else [c]

/-- Quoted JSON string literal for `s`. -/
def quoteJson (s : String) : String :=
  "\x22" ++ String.mk (s.data.flatMap escapeJsonChar) ++ "\x22"

mutual
/-- Compact serialization, `JSON.stringify(v)` (no third argument), as used for
the local cache. -/
def jsonStringify : Json → String
  | .null => "null"
  | .bool true => "true"
  | .bool false => "false"
  | .num n => toString n
  | .str s => quoteJson s
  | .arr xs => "[" ++ String.intercalate "," (stringifyElems xs) ++ "]"
  | .obj fs => "\x7b" ++ String.intercalate "," (stringifyFields fs) ++ "\x7d"

/-- Compact serialization of the elements of an array. -/
def stringifyElems : List Json → List String
  | [] => []
  | x :: xs => jsonStringify x :: stringifyElems xs

/-- Compact serialization of the members of an object. -/
def stringifyFields : List (String × Json) → List String
  | [] => []
  | (k, v) :: fs => (quoteJson k ++ ":" ++ jsonStringify v) :: stringifyFields fs
end

/-- Indentation of `2 * d` spaces produced by `JSON.stringify(v, null, 2)` at
nesting depth `d`. -/
def indentStr (d : Nat) : String :=
  String.mk (List.replicate (2 * d) ' ')

mutual
/-- Pretty serialization at depth `d`, following `JSON.stringify(v, null, 2)`:
non-empty arrays and objects put each item on its own indented line, and
object members use `": "` as separator. -/
def prettyVal : Nat → Json → String
  | _, .null => "null"
  | _, .bool true => "true"
  | _, .bool false => "false"
  | _, .num n => toString n
  | _, .str s => quoteJson s
  | _, .arr [] => "[]"
  | d, .arr (x :: xs) =>
    "[\n" ++ String.intercalate ",\n" (prettyElems (d + 1) (x :: xs)) ++ "\n" ++ indentStr d ++ "]"
  | _, .obj [] => "\x7b\x7d"
  | d, .obj (f :: fs) =>
    "\x7b\n" ++ String.intercalate ",\n" (prettyFields (d + 1) (f :: fs)) ++ "\n" ++ indentStr d ++ "\x7d"

/-- Pretty serialization of array elements at depth `d`. -/
def prettyElems : Nat → List Json → List String
  | _, [] => []
  | d, x :: xs => (indentStr d ++ prettyVal d x) :: prettyElems d xs

/-- Pretty serialization of object members at depth `d`. -/
def prettyFields : Nat → List (String × Json) → List String
  | _, [] => []
  | d, (k, v) :: fs => (indentStr d ++ quoteJson k ++ ": " ++ prettyVal d v) :: prettyFields d fs
end

/-- The pretty-printed serialization `JSON.stringify(logs, null, 2)` used by
`saveLogs` (src/github-storage.js line 131). -/
def jsonStringifyPretty (v : Json) : String :=
  prettyVal 0 v

/-- Value of a hexadecimal digit character (both cases), `none` otherwise. -/
def hexVal (c : Char) : Option Nat :=
  if 48 ≤ c.toNat ∧ c.toNat ≤ 57 then some (c.toNat - 48)
  else if 65 ≤ c.toNat ∧ c.toNat ≤ 70 then some (c.toNat - 55)
  else if 97 ≤ c.toNat ∧ c.toNat ≤ 102 then some (c.toNat - 87)
  else none

/-- Whitespace skipping in the JSON grammar. -/
def skipWs : List Char → List Char
  | c :: rest => if c = ' ' || c = '\n' || c = '\t' || c = '\r' then skipWs rest else c :: rest
  | [] => []

/-- Body of a JSON string literal after the opening quote, with `acc` the
reversed characters read so far; returns the string and the input following
the closing quote.  Unescaped control characters and unknown escapes are
syntax errors, as in `JSON.parse`. -/
def parseStringAux : List Char → List Char → Option (String × List Char)
  | acc, '\x22' :: rest => some (String.mk acc.reverse, rest)
  | acc, '\\' :: e :: rest =>
    match e with
    | '\x22' => parseStringAux ('\x22' :: acc) rest
    | '\\' => parseStringAux ('\\' :: acc) rest
    | '/' => parseStringAux ('/' :: acc) rest
    | 'n' => parseStringAux ('\n' :: acc) rest
    | 't' => parseStringAux ('\t' :: acc) rest
    | 'r' => parseStringAux ('\r' :: acc) rest
    | 'b' => parseStringAux (Char.ofNat 8 :: acc) rest
    | 'f' => parseStringAux (Char.ofNat 12 :: acc) rest
    | 'u' =>
      match rest with
      | h1 :: h2 :: h3 :: h4 :: rest2 =>
        match hexVal h1, hexVal h2, hexVal h3, hexVal h4 with
        | some v1, some v2, some v3, some v4 =>
          parseStringAux (Char.ofNat (4096 * v1 + 256 * v2 + 16 * v3 + v4) :: acc) rest2
        | _, _, _, _ => none
      | _ => none
    | _ => none
  | acc, c :: rest => if c.toNat < 32 then none else parseStringAux (c :: acc) rest
  | _, [] => none

/-- Decimal digit run with accumulator. -/
def parseDigitsAux : Nat → List Char → Nat × List Char
  | acc, c :: rest =>
    if c.isDigit then parseDigitsAux (10 * acc + (c.toNat - 48)) rest else (acc, c :: rest)
  | acc, [] => (acc, [])

/-- Non-empty decimal digit run. -/
def parseNat : List Char → Option (Nat × List Char)
  | c :: rest => if c.isDigit then some (parseDigitsAux (c.toNat - 48) rest) else none
  | [] => none

mutual
/-- Fuel-indexed JSON value parser; on success returns the value and the
unconsumed input. -/
def parseValue : Nat → List Char → Option (Json × List Char)
  | 0, _ => none
  | fuel + 1, cs =>
    match skipWs cs with
    | 'n' :: 'u' :: 'l' :: 'l' :: rest => some (.null, rest)
    | 't' :: 'r' :: 'u' :: 'e' :: rest => some (.bool true, rest)
    | 'f' :: 'a' :: 'l' :: 's' :: 'e' :: rest => some (.bool false, rest)
    | '\x22' :: rest => (parseStringAux [] rest).map (fun r => (.str r.1, r.2))
    | '[' :: rest =>
      match skipWs rest with
      | ']' :: rest2 => some (.arr [], rest2)
      | cs2 => parseElems fuel cs2 []
    | '\x7b' :: rest =>
      match skipWs rest with
      | '\x7d' :: rest2 => some (.obj [], rest2)
      | cs2 => parseFields fuel cs2 []
    | '-' :: rest => (parseNat rest).map (fun r => (.num (-(r.1 : Int)), r.2))
    | c :: rest =>
      if c.isDigit then (parseNat (c :: rest)).map (fun r => (.num (r.1 : Int), r.2)) else none
    | [] => none

/-- Elements of a non-empty array, with `acc` the reversed elements read so
far. -/
def parseElems : Nat → List Char → List Json → Option (Json × List Char)
  | 0, _, _ => none
  | fuel + 1, cs, acc =>
    match parseValue fuel cs with
    | some (v, rest) =>
      match skipWs rest with
      | ',' :: rest2 => parseElems fuel rest2 (v :: acc)
      | ']' :: rest2 => some (.arr (v :: acc).reverse, rest2)
      | _ => none
    | none => none

/-- Members of a non-empty object, with `acc` the reversed members read so
far. -/
def parseFields : Nat → List Char → List (String × Json) → Option (Json × List Char)
  | 0, _, _ => none
  | fuel + 1, cs, acc =>
    match skipWs cs with
    | '\x22' :: rest =>
      match parseStringAux [] rest with
      | some (key, rest2) =>
        match skipWs rest2 with
        | ':' :: rest3 =>
          match parseValue fuel rest3 with
          | some (v, rest4) =>
            match skipWs rest4 with
            | ',' :: rest5 => parseFields fuel rest5 ((key, v) :: acc)
            | '\x7d' :: rest5 => some (.obj ((key, v) :: acc).reverse, rest5)
            | _ => none
          | none => none
        | _ => none
      | none => none
    | _ => none
end

/-- The browser's `JSON.parse`: `some` on a well-formed document (within the
integer-number restriction noted on `Json`), `none` where `JSON.parse` throws
a `SyntaxError`. -/
def jsonParse (s : String) : Option Json :=
  match parseValue (4 * s.length + 4) s.data with
  | some (v, rest) => if skipWs rest = [] then some v else none
  | none => none

/-- UTF-8 encoding of one code point as a list of byte values. -/
def utf8EncodeChar (c : Char) : List Nat :=
  if c.toNat < 128 then [c.toNat]
  else if c.toNat < 2048 then [192 + c.toNat / 64, 128 + c.toNat % 64]
  else if c.toNat < 65536 then [224 + c.toNat / 4096, 128 + c.toNat / 64 % 64, 128 + c.toNat % 64]
  else [240 + c.toNat / 262144, 128 + c.toNat / 4096 % 64, 128 + c.toNat / 64 % 64, 128 + c.toNat % 64]

/-- Upper-case hexadecimal digit, as produced by `encodeURIComponent`. -/
def hexDigit (n : Nat) : Char :=
  "0123456789ABCDEF".data.getD n '0'

/-- Characters that `encodeURIComponent` leaves unescaped: ASCII letters,
digits, and `- _ . ! ~ * ( )` together with the apostrophe (code 39). -/
def uriUnreserved (c : Char) : Bool :=
  (48 ≤ c.toNat && c.toNat ≤ 57) || (65 ≤ c.toNat && c.toNat ≤ 90) ||
    (97 ≤ c.toNat && c.toNat ≤ 122) || (c.toNat == 45) || (c.toNat == 95) || (c.toNat == 46) ||
    (c.toNat == 33) || (c.toNat == 126) || (c.toNat == 42) || (c.toNat == 39) ||
    (c.toNat == 40) || (c.toNat == 41)

/-- Percent-escape of one byte value. -/
def percentEncodeByte (b : Nat) : List Char :=
  ['%', hexDigit (b / 16), hexDigit (b % 16)]

/-- Output of `encodeURIComponent` for one character: unreserved characters
pass through, everything else becomes the percent-escapes of its UTF-8
bytes. -/
def encodeURIChar (c : Char) : List Char :=
  if uriUnreserved c then [c] else (utf8EncodeChar c).flatMap percentEncodeByte

/-- The browser's `encodeURIComponent`. -/
def encodeURIComponent (s : String) : String :=
  String.mk (s.data.flatMap encodeURIChar)

/-- The browser's legacy `unescape`: `%uXXXX` with four hexadecimal digits
decodes to that code point, `%XX` with two hexadecimal digits decodes to that
code point, and every other character (including a `%` not followed by a
well-formed escape) passes through unchanged. -/
def unescapeChars : List Char → List Char
  | [] => []
  | '%' :: 'u' :: h1 :: h2 :: h3 :: h4 :: rest =>
    match hexVal h1, hexVal h2, hexVal h3, hexVal h4 with
    | some v1, some v2, some v3, some v4 =>
      Char.ofNat (4096 * v1 + 256 * v2 + 16 * v3 + v4) :: unescapeChars rest
    | _, _, _, _ => '%' :: unescapeChars ('u' :: h1 :: h2 :: h3 :: h4 :: rest)
  | '%' :: h1 :: h2 :: rest =>
    match hexVal h1, hexVal h2 with
    | some v1, some v2 => Char.ofNat (16 * v1 + v2) :: unescapeChars rest
    | _, _ => '%' :: unescapeChars (h1 :: h2 :: rest)
  | c :: rest => c :: unescapeChars rest

/-- String form of `unescape`. -/
def unescape (s : String) : String :=
  String.mk (unescapeChars s.data)

/-- The base64 alphabet. -/
def base64Chars : List Char :=
  "ABCDEFGHIJKLMNOPQRSTUVWXYZabcdefghijklmnopqrstuvwxyz0123456789+/".data

/-- Character for a six-bit group. -/
def b64Char (n : Nat) : Char :=
  base64Chars.getD n 'A'

/-- Base64 encoding of a byte sequence, with `=` padding. -/
def btoaBytes : List Nat → List Char
  | [] => []
  | [a] => [b64Char (a / 4), b64Char (a % 4 * 16), '=', '=']
  | [a, b] => [b64Char (a / 4), b64Char (a % 4 * 16 + b / 16), b64Char (b % 16 * 4), '=']
  | a :: b :: c :: rest =>
    b64Char (a / 4) :: b64Char (a % 4 * 16 + b / 16) :: b64Char (b % 16 * 4 + c / 64) ::
      b64Char (c % 64) :: btoaBytes rest

/-- The browser's `btoa`: encodes a string of code points below 256; a code
point of 256 or more raises `InvalidCharacterError`, modelled by `none`. -/
def btoa (s : String) : Option String :=
  if s.data.all (fun c => c.toNat < 256) then
    some (String.mk (btoaBytes (s.data.map Char.toNat)))
  else none

/-- Index of a character in the base64 alphabet. -/
def b64Index (c : Char) : Option Nat :=
  base64Chars.findIdx? (fun d => d == c)

/-- Base64 decoding to byte values; `none` on an invalid character, misplaced
padding, or a length that leaves a single trailing character. -/
def atobChars : List Char → Option (List Nat)
  | [] => some []
  | [c1, c2] =>
    match b64Index c1, b64Index c2 with
    | some w, some x => some [w * 4 + x / 16]
    | _, _ => none
  | [c1, c2, c3] =>
    match b64Index c1, b64Index c2, b64Index c3 with
    | some w, some x, some y => some [w * 4 + x / 16, x % 16 * 16 + y / 4]
    | _, _, _ => none
  | [c1, c2, '=', '='] =>
    match b64Index c1, b64Index c2 with
    | some w, some x => some [w * 4 + x / 16]
    | _, _ => none
  | [c1, c2, c3, '='] =>
    match b64Index c1, b64Index c2, b64Index c3 with
    | some w, some x, some y => some [w * 4 + x / 16, x % 16 * 16 + y / 4]
    | _, _, _ => none
  | c1 :: c2 :: c3 :: c4 :: rest =>
    match b64Index c1, b64Index c2, b64Index c3, b64Index c4 with
    | some w, some x, some y, some z =>
      (atobChars rest).map (fun bs => (w * 4 + x / 16) :: (x % 16 * 16 + y / 4) :: (y % 4 * 64 + z) :: bs)
    | _, _, _, _ => none
  | [_] => none

/-- The browser's `atob`: decodes base64 to a string whose code points are the
decoded byte values; `InvalidCharacterError` is modelled by `none`. -/
def atob (s : String) : Option String :=
  (atobChars s.data).map (fun bs => String.mk (bs.map Char.ofNat))

mutual
/-- JavaScript string coercion `String(v)` of a JSON value, used when `atob`
receives a non-string argument (primitives print their literal form, arrays
join their elements with commas printing `null` as the empty string, plain
objects print `[object Object]`, and a missing field is `undefined`, which
prints as the eight-letter word). -/
def jsToString : Json → String
  | .null => "null"
  | .bool true => "true"
  | .bool false => "false"
  | .num n => toString n
  | .str s => s
  | .arr xs => String.intercalate "," (jsToStringList xs)
  | .obj _ => "[object Object]"

/-- Element strings for `Array.prototype.toString`. -/
def jsToStringList : List Json → List String
  | [] => []
  | .null :: xs => "" :: jsToStringList xs
  | x :: xs => jsToString x :: jsToStringList xs
end

/-- The browser's `localStorage`, restricted to its string key/value map:
`setItem` conses a binding and `getItem` returns the most recent one. -/
abbrev LocalStorage := List (String × String)

/-- The value stored under a key, `null` (here `none`) when absent. -/
def getItem (st : LocalStorage) (k : String) : Option String :=
  st.lookup k

/-- Store a value under a key. -/
def setItem (st : LocalStorage) (k : String) (v : String) : LocalStorage :=
  (k, v) :: st

/-- Kinds of JavaScript exceptions raised on the paths modelled here. -/
inductive JsError where
  | configMissing : JsError
  | parseError : JsError
  | networkError : JsError
  | apiError : Nat → JsError
  | badBase64 : JsError
deriving DecidableEq

/-- Outcome of one `fetch` call: the promise rejects (network failure), or
resolves to a response with a status code and a body. -/
inductive FetchResult where
  | networkError : FetchResult
  | response : Nat → String → FetchResult

/-- The ambient world of one adapter call: the outcome the remote store gives
to the GET and to the PUT request, whether `localStorage.setItem` throws
`QuotaExceededError`, and the `toLocaleString` timestamp used in the commit
message. -/
structure Env where
  getResult : FetchResult
  putResult : FetchResult
  quotaExceeded : Bool
  timestamp : String

/-- The `response.ok` predicate: status in the range 200-299. -/
def isOkStatus (status : Nat) : Bool :=
  200 ≤ status && status < 300

/-- The adapter's configuration, `this.config`: `none` while still `null`,
otherwise the JSON value parsed from local storage. -/
abbrev Config := Option Json

/-- Method `loadConfig` (src/github-storage.js lines 17-29), returning the
resulting `this.config` together with the method's boolean return value.
Reads the `github_config` key; a falsy (absent or empty) entry leaves the
configuration `null`, and a `JSON.parse` failure is caught, logged, and
leaves the configuration `null`. -/
def loadConfig (st : LocalStorage) : Config × Bool :=
  match getItem st "github_config" with
  | some configStr =>
    if configStr = "" then (none, false)
    else
      match jsonParse configStr with
      | some v => (some v, true)
      | none => (none, false)
  | none => (none, false)

/-- Method `isConfigured` (lines 34-36): truthiness of
`config && config.username && config.repo && config.token`. -/
def isConfigured (config : Config) : Bool :=
  match config with
  | none => false
  | some j => jsTruthy j && truthyField j "username" && truthyField j "repo" && truthyField j "token"

/-- Method `loadLogsFromLocal` (lines 174-177): `data ? JSON.parse(data) : []`
on the `updateLogs` key.  A falsy (absent or empty) entry yields the empty
array; malformed JSON makes `JSON.parse` throw, which this method does not
catch. -/
def loadLogsFromLocal (st : LocalStorage) : Except JsError Json :=
  match getItem st "updateLogs" with
  | some data =>
    if data = "" then .ok (.arr [])
    else
      match jsonParse data with
      | some v => .ok v
      | none => .error .parseError
  | none => .ok (.arr [])

/-- Method `saveLogsToLocal` (lines 182-194): writes the compact serialization
under `updateLogs`, catching a quota error and returning `false` in that
case. -/
def saveLogsToLocal (env : Env) (st : LocalStorage) (logs : Json) : Bool × LocalStorage :=
  if env.quotaExceeded then (false, st)
  else (true, setItem st "updateLogs" (jsonStringify logs))

/-- Body of the `try` block of `loadLogs` (lines 71-96).  The GET request is
issued with the URL and headers derived from the configuration; its outcome
comes from the environment.  Status 404 returns the empty array; any other
non-success status throws; otherwise the response body is parsed, its
`content` field (coerced to a string when it is not one) is base64-decoded
with `atob`, the result is parsed as JSON — note, with no UTF-8 decoding
after `atob` — cached locally, and returned. -/
def loadLogsTry (env : Env) (st : LocalStorage) : Except JsError (Json × LocalStorage) :=
  match env.getResult with
  | .networkError => .error .networkError
  | .response status body =>
    if status = 404 then .ok (.arr [], st)
    else if isOkStatus status = false then .error (.apiError status)
    else
      match jsonParse body with
      | none => .error .parseError
      | some data =>
        let contentArg :=
          match getField data "content" with
          | some v => jsToString v
          | none => "undefined"
        match atob contentArg with
        | none => .error .badBase64
        | some content =>
          match jsonParse content with
          | none => .error .parseError
          | some logs => .ok (logs, (saveLogsToLocal env st logs).2)

/-- Method `loadLogs` (lines 65-102): unconfigured calls fall back to the
local cache immediately; otherwise any exception inside the `try` block is
caught and the local cache is read instead.  The fallback read itself is
outside every `try`, so its `JSON.parse` exception propagates. -/
def loadLogs (config : Config) (env : Env) (st : LocalStorage) : Except JsError (Json × LocalStorage) :=
  if isConfigured config then
    match loadLogsTry env st with
    | .ok r => .ok r
    | .error _ => (loadLogsFromLocal st).map (fun v => (v, st))
  else
    (loadLogsFromLocal st).map (fun v => (v, st))

/-- Observable outcome of `saveLogs`: its boolean return value, the final
local storage, how many times `alert` fired, and the body of the PUT request
when one was issued. -/
structure SaveResult where
  ret : Bool
  store : LocalStorage
  alerts : Nat
  putRequest : Option Json

/-- The revision identifier obtained by the inner `try` of `saveLogs` (lines
116-128): the `sha` field of the GET response body when the request succeeds
and its body parses; any failure is caught and leaves it `null`. -/
def fetchSha (env : Env) : Option Json :=
  match env.getResult with
  | .networkError => none
  | .response status body =>
    if isOkStatus status then
      match jsonParse body with
      | some fileData => getField fileData "sha"
      | none => none
    else none

/-- Line 132: `btoa(unescape(encodeURIComponent(JSON.stringify(logs, null,
2))))`, the base64 content sent to the remote store. -/
def encodedContentOf (logs : Json) : Option String :=
  btoa (unescape (encodeURIComponent (jsonStringifyPretty logs)))

/-- The `branch` property of the request body: `config.branch || 'main'`. -/
def branchOf (config : Config) : Json :=
  match config with
  | some j =>
    match getField j "branch" with
    | some b => if jsTruthy b then b else .str "main"
    | none => .str "main"
  | none => .str "main"

/-- The PUT request body built at lines 134-143: message with timestamp,
encoded content, branch, and the revision identifier when one was obtained
and is truthy. -/
def requestBodyOf (config : Config) (env : Env) (encodedContent : String) : Json :=
  .obj
    ([("message", .str ("更新日志数据 - " ++ env.timestamp)),
      ("content", .str encodedContent),
      ("branch", branchOf config)] ++
      (match fetchSha env with
       | some s => if jsTruthy s then [("sha", s)] else []
       | none => []))

/-- Method `saveLogs` (lines 107-169).  Unconfigured calls only write to the
local cache and return that write's success with no alert.  Configured calls
fetch the revision identifier (failures swallowed), encode the collection,
and issue the PUT; any exception in the `try` block — a rejected PUT, a
non-success PUT status (which throws after reading the error body), or an
encoding failure — reaches the `catch`, which fires `alert` once, writes the
local cache, and returns `false`.  A successful PUT writes the local cache,
ignoring that write's result, and returns `true`. -/
def saveLogs (config : Config) (env : Env) (st : LocalStorage) (logs : Json) : SaveResult :=
  if isConfigured config then
    match encodedContentOf logs with
    | none =>
      let r := saveLogsToLocal env st logs
      ⟨false, r.2, 1, none⟩
    | some encodedContent =>
      let requestBody := requestBodyOf config env encodedContent
      match env.putResult with
      | .networkError =>
        let r := saveLogsToLocal env st logs
        ⟨false, r.2, 1, some requestBody⟩
      | .response status _ =>
        if isOkStatus status then
          let r := saveLogsToLocal env st logs
          ⟨true, r.2, 0, some requestBody⟩
        else
          let r := saveLogsToLocal env st logs
          ⟨false, r.2, 1, some requestBody⟩
  else
    let r := saveLogsToLocal env st logs
    ⟨r.1, r.2, 0, none⟩

/-- Method `syncFromGitHub` (lines 199-206): throws when unconfigured,
otherwise returns the result of `loadLogs`. -/
def syncFromGitHub (config : Config) (env : Env) (st : LocalStorage) :
    Except JsError (Json × LocalStorage) :=
  if isConfigured config then loadLogs config env st
  else .error .configMissing

/-- Method `syncToGitHub` (lines 211-218): throws when unconfigured, otherwise
reads the collection from the local cache (whose `JSON.parse` exception would
propagate) and pushes it with `saveLogs`. -/
def syncToGitHub (config : Config) (env : Env) (st : LocalStorage) : Except JsError SaveResult :=
  if isConfigured config then
    (loadLogsFromLocal st).map (fun logs => saveLogs config env st logs)
  else .error .configMissing

/-- A cache entry under `updateLogs` that `loadLogsFromLocal` can read without
throwing: absent, empty (falsy), or well-formed JSON. -/
def cacheWellFormed (st : LocalStorage) : Bool :=
  match getItem st "updateLogs" with
  | none => true
  | some d => d == "" || (jsonParse d).isSome

/-- The PUT request failed: the promise rejected, or the response has a
non-success status (on which `saveLogs` throws into its `catch`). -/
def putFailed (env : Env) : Bool :=
  match env.putResult with
  | .networkError => true
  | .response status _ => !isOkStatus status

/-- The PUT request succeeded (a response with a 2xx status). -/
def putSucceeded (env : Env) : Bool :=
  match env.putResult with
  | .networkError => false
  | .response status _ => isOkStatus status

/-- A configuration object holding exactly the given optional `username`,
`repo` and `token` string fields, used to state the `isConfigured` claim. -/
def configJson (u r t : Option String) : Json :=
  .obj
    ((match u with | some s => [("username", Json.str s)] | none => []) ++
      (match r with | some s => [("repo", Json.str s)] | none => []) ++
      (match t with | some s => [("token", Json.str s)] | none => []))

/-- A fully configured example configuration. -/
def demoConfig : Json :=
  .obj [("username", .str "alice"), ("repo", .str "logs"), ("token", .str "tok")]

/-- The example collection from the specification: `[ \x7b "text": "日志" \x7d ]`. -/
def demoLogs : Json := .arr [.obj [("text", .str "日志")]]

/-- The base64 content `saveLogs` produces for `demoLogs`. -/
def demoEncoded : String := (encodedContentOf demoLogs).getD ""

/-- The GET response body a remote store answers after storing exactly the
bytes that `saveLogs` wrote for `demoLogs`. -/
def demoRemoteFile : String :=
  jsonStringify (.obj [("content", .str demoEncoded), ("sha", .str "abc123")])

/-- Environment for the round-trip scenario: the GET request returns the file
just saved, the PUT request succeeds, and local storage has room. -/
def demoEnv : Env := ⟨.response 200 demoRemoteFile, .response 200 "\x7b\x7d", false, "ts"⟩

/-- A quiet environment for witnesses: both requests succeed with empty
bodies, local storage has room. -/
def demoEnvPlain : Env := ⟨.response 200 "", .response 200 "", false, ""⟩

/-- Environment whose GET request answers 404. -/
def demo404Env : Env := ⟨.response 404 "x", .response 200 "", false, ""⟩

/-- Environment whose PUT request fails with status 500. -/
def demoFailEnv : Env := ⟨.networkError, .response 500 "oops", false, "ts"⟩

/-- Environment where the PUT succeeds but the local store is out of quota. -/
def demoQuotaEnv : Env := ⟨.networkError, .response 200 "", true, "ts"⟩

/-- The collection `loadLogs` actually returns in the round-trip scenario:
the UTF-8 bytes of 日志 (e6 97 a5 e5 bf 97) read back as one character per
byte, because `atob` is not followed by any UTF-8 decoding. -/
def demoMojibake : Json := .arr [.obj [("text", .str "\xe6\x97\xa5\xe5\xbf\x97")]]


/-!
Auxiliary lemmas.  The chain below shows that the encoding pipeline of
`saveLogs` — `btoa(unescape(encodeURIComponent(content)))` — always succeeds:
`encodeURIComponent` emits only unreserved ASCII characters and percent
escapes, `unescape` turns that into the UTF-8 bytes of the original string
read as code points below 256, and such a string is in the domain of `btoa`.
-/

theorem hexVal_hexDigit : ∀ n < 16, hexVal (hexDigit n) = some n := by decide

theorem hexDigit_ne_u : ∀ n < 16, hexDigit n ≠ 'u' := by decide

theorem unescapeChars_plain (c : Char) (tail : List Char) (hc : c ≠ '%') :
    unescapeChars (c :: tail) = c :: unescapeChars tail := by
  conv_lhs => rw [unescapeChars.eq_def]
  split
  all_goals simp_all

theorem unescapeChars_pct (x y : Char) (vx vy : Nat) (tail : List Char) (hx : x ≠ 'u')
    (hvx : hexVal x = some vx) (hvy : hexVal y = some vy) :
    unescapeChars ('%' :: x :: y :: tail) = Char.ofNat (16 * vx + vy) :: unescapeChars tail := by
  conv_lhs => rw [unescapeChars.eq_def]
  split
  case h_4 hno heq =>
    injection heq with h1 h2
    exact absurd h2.symm (hno x y tail h1.symm)
  all_goals simp_all

theorem char_toNat_lt_1114112 (c : Char) : c.toNat < 1114112 := by
  rcases c.valid with h | h
  · exact Nat.lt_trans h (by norm_num)
  · exact h.2

theorem utf8EncodeChar_lt256 (c : Char) : ∀ b ∈ utf8EncodeChar c, b < 256 := by
  have hc := char_toNat_lt_1114112 c
  intro b hb
  have hd64 : c.toNat / 64 % 64 < 64 := Nat.mod_lt _ (by norm_num)
  have hd4096 : c.toNat / 4096 % 64 < 64 := Nat.mod_lt _ (by norm_num)
  have hm : c.toNat % 64 < 64 := Nat.mod_lt _ (by norm_num)
  have h262144 : c.toNat / 262144 < 5 := by omega
  unfold utf8EncodeChar at hb
  split at hb
  · simp only [List.mem_singleton] at hb
    omega
  · split at hb
    · have h64 : c.toNat / 64 < 32 := by omega
      simp only [List.mem_cons, List.not_mem_nil, or_false] at hb
      rcases hb with h | h <;> omega
    · split at hb
      · have h4096 : c.toNat / 4096 < 16 := by omega
        simp only [List.mem_cons, List.not_mem_nil, or_false] at hb
        rcases hb with h | h | h <;> omega
      · simp only [List.mem_cons, List.not_mem_nil, or_false] at hb
        rcases hb with h | h | h | h <;> omega

theorem unescapeChars_pEB (bs : List Nat) (tail : List Char) (h : ∀ b ∈ bs, b < 256) :
    unescapeChars (bs.flatMap percentEncodeByte ++ tail) =
      bs.map Char.ofNat ++ unescapeChars tail := by
  induction bs with
  | nil => simp
  | cons b bs ih =>
    have hb : b < 256 := h b (List.mem_cons_self ..)
    have hdiv : b / 16 < 16 := by omega
    have hmod : b % 16 < 16 := Nat.mod_lt _ (by norm_num)
    rw [List.flatMap_cons, percentEncodeByte, List.append_assoc, List.cons_append,
      List.cons_append, List.cons_append, List.nil_append,
      unescapeChars_pct (hexDigit (b / 16)) (hexDigit (b % 16)) (b / 16) (b % 16) _
        (hexDigit_ne_u _ hdiv) (hexVal_hexDigit _ hdiv) (hexVal_hexDigit _ hmod),
      ih (fun x hx => h x (List.mem_cons_of_mem _ hx))]
    simp [Nat.div_add_mod b 16]

theorem uriUnreserved_lt128 {c : Char} (h : uriUnreserved c = true) :
    c.toNat < 128 ∧ c.toNat ≠ 37 := by
  simp only [uriUnreserved, Bool.or_eq_true, decide_eq_true_eq, beq_iff_eq,
    Bool.and_eq_true] at h
  omega

theorem utf8EncodeChar_ascii {c : Char} (h : c.toNat < 128) : utf8EncodeChar c = [c.toNat] := by
  unfold utf8EncodeChar
  rw [if_pos h]

theorem unescapeChars_encode (cs : List Char) :
    unescapeChars (cs.flatMap encodeURIChar) = (cs.flatMap utf8EncodeChar).map Char.ofNat := by
  induction cs with
  | nil => simp [unescapeChars]
  | cons c cs ih =>
    rw [List.flatMap_cons, List.flatMap_cons, encodeURIChar]
    by_cases h : uriUnreserved c = true
    · obtain ⟨h128, h37⟩ := uriUnreserved_lt128 h
      have hpct : c ≠ '%' := by
        intro hc
        subst hc
        simp at h37
      rw [if_pos h, List.cons_append, List.nil_append, unescapeChars_plain c _ hpct, ih,
        utf8EncodeChar_ascii h128]
      simp
    · rw [if_neg h, unescapeChars_pEB _ _ (utf8EncodeChar_lt256 c), ih, List.map_append]

set_option maxRecDepth 4000 in
theorem toNat_ofNat_lt256 : ∀ b < 256, (Char.ofNat b).toNat = b := by decide

theorem encodedContentOf_isSome (logs : Json) : ∃ e, encodedContentOf logs = some e := by
  rw [encodedContentOf, unescape, encodeURIComponent]
  rw [show (String.mk ((jsonStringifyPretty logs).data.flatMap encodeURIChar)).data =
    (jsonStringifyPretty logs).data.flatMap encodeURIChar from rfl]
  rw [unescapeChars_encode]
  rw [btoa]
  rw [if_pos]
  · exact ⟨_, rfl⟩
  · rw [show (String.mk (((jsonStringifyPretty logs).data.flatMap utf8EncodeChar).map Char.ofNat)).data =
      ((jsonStringifyPretty logs).data.flatMap utf8EncodeChar).map Char.ofNat from rfl]
    rw [List.all_eq_true]
    intro c hc
    simp only [List.mem_map] at hc
    obtain ⟨b, hb, rfl⟩ := hc
    simp only [List.mem_flatMap] at hb
    obtain ⟨d, _, hbd⟩ := hb
    have := utf8EncodeChar_lt256 d b hbd
    simp [toNat_ofNat_lt256 b this, this]

/-!
Sanity checks of the JSON serializer and parser on concrete documents.
-/

example : jsonParse "[1, \x22ab\x22]" = some (.arr [.num 1, .str "ab"]) := rfl
example : jsonParse "\x7b \x22a\x22: [true, null] \x7d" = some (.obj [("a", .arr [.bool true, .null])]) := rfl
example : jsonParse "\x7b" = none := rfl
example : jsonParse "" = none := rfl
example : jsonStringify (.arr [.obj [("a", .num (-2))]]) = "[\x7b\x22a\x22:-2\x7d]" := rfl
example : jsonStringifyPretty (.arr [.obj [("a", .num 1)]]) = "[\n  \x7b\n    \x22a\x22: 1\n  \x7d\n]" := rfl

/-- Claim C1: saving a collection with non-ASCII text through `saveLogs` and
loading the very same stored bytes back through `loadLogs` does NOT return an
equal collection: the PUT body carries the base64 of the UTF-8 bytes, but the
load path applies `atob` with no UTF-8 decoding, so `[\x7b"text":"日志"\x7d]`
comes back with each UTF-8 byte as its own character. -/
theorem saveLogs_loadLogs_roundtrip_fails_on_nonAscii :
    (saveLogs (some demoConfig) demoEnv [] demoLogs).putRequest.bind
        (fun rb => getField rb "content") = some (.str demoEncoded) ∧
    (loadLogs (some demoConfig) demoEnv []).toOption.map Prod.fst = some demoMojibake ∧
    demoMojibake ≠ demoLogs := by
  refine ⟨rfl, rfl, ?_⟩
  intro h
  simp [demoMojibake, demoLogs] at h

/-- Claim C3: when configured and the remote GET answers 404, `loadLogs`
returns the empty collection and leaves the local storage untouched (the
result does not depend on the cache content at all). -/
theorem loadLogs_404_empty_cache_untouched (config : Config) (env : Env)
    (st : LocalStorage) (body : String) (hconf : isConfigured config = true)
    (hget : env.getResult = .response 404 body) :
    loadLogs config env st = .ok (.arr [], st) := by
  simp [loadLogs, hconf, loadLogsTry, hget]

theorem loadLogs_404_witness :
    loadLogs (some demoConfig) demo404Env [("updateLogs", "[1]")] =
      .ok (.arr [], [("updateLogs", "[1]")]) :=
  loadLogs_404_empty_cache_untouched (some demoConfig) demo404Env
    [("updateLogs", "[1]")] "x" rfl rfl

/-- Claim C4 as stated is false: with any malformed JSON in the cache, the
fallback read's `JSON.parse` throws and the exception escapes `loadLogs`. -/
theorem loadLogs_throws_on_malformed_cache :
    loadLogs none demoEnvPlain [("updateLogs", "\x7b")] = .error .parseError := rfl

theorem loadLogsFromLocal_wf_isOk (st : LocalStorage) (h : cacheWellFormed st = true) :
    ∃ v, loadLogsFromLocal st = .ok v := by
  unfold cacheWellFormed at h
  unfold loadLogsFromLocal
  cases hg : getItem st "updateLogs" with
  | none => exact ⟨_, rfl⟩
  | some d =>
    rw [hg] at h
    simp only [Bool.or_eq_true, beq_iff_eq, Option.isSome_iff_exists] at h
    by_cases he : d = ""
    · refine ⟨.arr [], ?_⟩
      simp [he]
    · obtain ⟨v, hv⟩ := h.resolve_left he
      exact ⟨v, by simp [he, hv]⟩

/-- Claim C4, amended: provided the cache entry is absent, empty or
well-formed JSON, `loadLogs` propagates no exception, and whenever the remote
read attempt fails the call degrades to the local-cache fallback. -/
theorem loadLogs_no_exception_on_wellformed_cache (config : Config) (env : Env)
    (st : LocalStorage) (hwf : cacheWellFormed st = true) :
    (loadLogs config env st).toOption.isSome = true ∧
    (isConfigured config = true → ∀ e, loadLogsTry env st = .error e →
      loadLogs config env st = (loadLogsFromLocal st).map (fun v => (v, st))) := by
  obtain ⟨v, hv⟩ := loadLogsFromLocal_wf_isOk st hwf
  constructor
  · unfold loadLogs
    by_cases hconf : isConfigured config
    · simp only [hconf, if_true]
      cases htry : loadLogsTry env st with
      | ok r => simp [Except.toOption]
      | error e => simp [hv, Except.map, Except.toOption]
    · simp [hconf, hv, Except.map, Except.toOption]
  · intro hconf e he
    simp [loadLogs, hconf, he]

theorem loadLogs_no_exception_witness :
    (loadLogs none demoEnvPlain []).toOption.isSome = true :=
  (loadLogs_no_exception_on_wellformed_cache none demoEnvPlain [] rfl).1

/-- Claim C2: whatever the configuration and the remote outcome, after
`saveLogs` the local cache key `updateLogs` holds the JSON serialization of
the collection (local storage itself within quota). -/
theorem saveLogs_always_writes_cache (config : Config) (env : Env) (st : LocalStorage)
    (logs : Json) (hq : env.quotaExceeded = false) :
    getItem (saveLogs config env st logs).store "updateLogs" = some (jsonStringify logs) := by
  have hlocal : saveLogsToLocal env st logs = (true, setItem st "updateLogs" (jsonStringify logs)) := by
    simp [saveLogsToLocal, hq]
  unfold saveLogs
  by_cases hconf : isConfigured config
  · simp only [hconf, if_true]
    cases henc : encodedContentOf logs with
    | none => simp [hlocal, getItem, setItem, List.lookup]
    | some e =>
      cases hput : env.putResult with
      | networkError => simp [hlocal, getItem, setItem, List.lookup]
      | response status body =>
        by_cases hok : isOkStatus status <;> simp [hok, hlocal, getItem, setItem, List.lookup]
  · simp [hconf, hlocal, getItem, setItem, List.lookup]

theorem saveLogs_writes_cache_witness :
    getItem (saveLogs none demoEnvPlain [] demoLogs).store "updateLogs" =
      some (jsonStringify demoLogs) :=
  saveLogs_always_writes_cache none demoEnvPlain [] demoLogs rfl

/-- Claim C5: when configured and the PUT fails, `saveLogs` returns `false`,
fires the alert exactly once, and still writes the collection to the cache. -/
theorem saveLogs_put_failure (config : Config) (env : Env) (st : LocalStorage)
    (logs : Json) (hconf : isConfigured config = true) (hq : env.quotaExceeded = false)
    (hput : putFailed env = true) :
    (saveLogs config env st logs).ret = false ∧ (saveLogs config env st logs).alerts = 1 ∧
    getItem (saveLogs config env st logs).store "updateLogs" = some (jsonStringify logs) := by
  have hlocal : saveLogsToLocal env st logs = (true, setItem st "updateLogs" (jsonStringify logs)) := by
    simp [saveLogsToLocal, hq]
  unfold putFailed at hput
  unfold saveLogs
  simp only [hconf, if_true]
  cases henc : encodedContentOf logs with
  | none => simp [hlocal, getItem, setItem, List.lookup]
  | some e =>
    cases hp : env.putResult with
    | networkError => simp [hlocal, getItem, setItem, List.lookup]
    | response status body =>
      rw [hp] at hput
      simp only [Bool.not_eq_true'] at hput
      simp [hput, hlocal, getItem, setItem, List.lookup]

theorem saveLogs_put_failure_witness :
    (saveLogs (some demoConfig) demoFailEnv [] demoLogs).ret = false ∧
    (saveLogs (some demoConfig) demoFailEnv [] demoLogs).alerts = 1 ∧
    getItem (saveLogs (some demoConfig) demoFailEnv [] demoLogs).store "updateLogs" =
      some (jsonStringify demoLogs) :=
  saveLogs_put_failure (some demoConfig) demoFailEnv [] demoLogs rfl rfl rfl

/-- Claim C6: `isConfigured` is true exactly when username, repo and token are
all present and non-empty; in particular it is false when the configuration
was never loaded. -/
theorem isConfigured_iff_all_fields :
    (∀ u r t : Option String,
      isConfigured (some (configJson u r t)) =
        (u.any (fun s => s != "") && r.any (fun s => s != "") && t.any (fun s => s != ""))) ∧
    isConfigured none = false := by
  refine ⟨fun u r t => ?_, rfl⟩
  cases u <;> cases r <;> cases t <;>
    simp [configJson, isConfigured, jsTruthy, truthyField, getField, Option.any, List.lookup]

/-- Claim C7: when unconfigured, `loadLogs` returns exactly the parsed cache
content, the empty collection when the key is absent, and never consults the
remote store (the environment is universally quantified). -/
theorem loadLogs_unconfigured_reads_cache (config : Config) (env : Env)
    (st : LocalStorage) (hconf : isConfigured config = false) :
    (getItem st "updateLogs" = none → loadLogs config env st = .ok (.arr [], st)) ∧
    (∀ d v, getItem st "updateLogs" = some d → jsonParse d = some v →
      loadLogs config env st = .ok (v, st)) := by
  constructor
  · intro habs
    simp [loadLogs, hconf, loadLogsFromLocal, habs, Except.map]
  · intro d v hd hv
    have hne : d ≠ "" := by
      intro h
      subst h
      rw [show jsonParse "" = none from rfl] at hv
      exact Option.noConfusion hv
    simp [loadLogs, hconf, loadLogsFromLocal, hd, hne, hv, Except.map]

theorem loadLogs_unconfigured_witness :
    loadLogs none demoEnvPlain [("updateLogs", "[1]")] =
      .ok (.arr [.num 1], [("updateLogs", "[1]")]) :=
  (loadLogs_unconfigured_reads_cache none demoEnvPlain [("updateLogs", "[1]")] rfl).2
    "[1]" (.arr [.num 1]) rfl rfl

/-- Claim C8: the sync wrappers throw a configuration-missing error when
unconfigured; when configured, `syncFromGitHub` returns the result of
`loadLogs`, and `syncToGitHub` pushes the collection read from the local
cache through `saveLogs`. -/
theorem sync_wrappers_delegate (config : Config) (env : Env) (st : LocalStorage) :
    (isConfigured config = false →
      syncFromGitHub config env st = .error .configMissing ∧
      syncToGitHub config env st = .error .configMissing) ∧
    (isConfigured config = true →
      syncFromGitHub config env st = loadLogs config env st ∧
      ∀ v, loadLogsFromLocal st = .ok v →
        syncToGitHub config env st = .ok (saveLogs config env st v)) := by
  constructor
  · intro h
    simp [syncFromGitHub, syncToGitHub, h]
  · intro h
    refine ⟨by simp [syncFromGitHub, h], fun v hv => ?_⟩
    simp [syncToGitHub, h, hv, Except.map]

theorem sync_wrappers_witness :
    syncFromGitHub none demoEnvPlain [] = .error .configMissing ∧
    syncToGitHub none demoEnvPlain [] = .error .configMissing ∧
    syncToGitHub (some demoConfig) demoEnvPlain [] =
      .ok (saveLogs (some demoConfig) demoEnvPlain [] (.arr [])) :=
  ⟨((sync_wrappers_delegate none demoEnvPlain []).1 rfl).1,
   ((sync_wrappers_delegate none demoEnvPlain []).1 rfl).2,
   ((sync_wrappers_delegate (some demoConfig) demoEnvPlain []).2 rfl).2 (.arr []) rfl⟩

/-- Claim C9: a present but malformed configuration entry makes `loadConfig`
return with the configuration still absent (no exception modelled — the
function is total), and `isConfigured` is then false. -/
theorem loadConfig_malformed_absent (st : LocalStorage) (s : String)
    (hs : getItem st "github_config" = some s) (hbad : jsonParse s = none) :
    loadConfig st = (none, false) ∧ isConfigured (loadConfig st).1 = false := by
  have h1 : loadConfig st = (none, false) := by
    unfold loadConfig
    rw [hs]
    by_cases he : s = ""
    · simp [he]
    · simp [he, hbad]
  refine ⟨h1, ?_⟩
  rw [h1]
  rfl

theorem loadConfig_malformed_witness :
    loadConfig [("github_config", "\x7boops")] = (none, false) ∧
    isConfigured (loadConfig [("github_config", "\x7boops")]).1 = false :=
  loadConfig_malformed_absent [("github_config", "\x7boops")] "\x7boops" rfl rfl

/-- Claim C10: when configured and the PUT succeeds, `saveLogs` returns `true`
regardless of the quota state of local storage — the result of the mirroring
cache write is discarded. -/
theorem saveLogs_true_despite_quota (config : Config) (env : Env) (st : LocalStorage)
    (logs : Json) (hconf : isConfigured config = true) (hput : putSucceeded env = true) :
    (saveLogs config env st logs).ret = true := by
  obtain ⟨e, he⟩ := encodedContentOf_isSome logs
  unfold putSucceeded at hput
  unfold saveLogs
  simp only [hconf, if_true, he]
  cases hp : env.putResult with
  | networkError =>
    rw [hp] at hput
    exact absurd hput (by simp)
  | response status body =>
    rw [hp] at hput
    simp only [] at hput
    simp [hput]

theorem saveLogs_true_despite_quota_witness :
    (saveLogs (some demoConfig) demoQuotaEnv [] demoLogs).ret = true :=
  saveLogs_true_despite_quota (some demoConfig) demoQuotaEnv [] demoLogs rfl rfl
